import Mathlib

/-!
Verification of the loan amortization core of `loan.py`: the EMI calculator
(`calculate_emi`) and the repayment-schedule generator
(`generate_repayment_schedule`).

The Python code works on floats; here the arithmetic is embedded over `ℚ`
(exact rationals): every operation the core performs — `+`, `-`, `*`, `/`,
`abs`, comparison with the literal `0.01`, and `math.pow` with a natural
exponent — is rational, so the embedding mirrors the source expressions
exactly.  `calculate_emi` returns `Option ℚ`: `none` models Python's `None`
(the invalid-term signal).  The schedule generator's printing is modelled by
returning the per-month records and the running totals it would print.
-/

namespace Loan

/-- One row of the repayment schedule: the values printed for one month
(period index, opening balance, interest paid, principal paid, closing
balance).  Field names follow the specification's `PaymentRecord`. -/
structure PaymentRecord where
  periodIndex : ℕ
  openingBalance : ℚ
  interestPortion : ℚ
  principalPortion : ℚ
  closingBalance : ℚ
deriving DecidableEq, Repr

/-- The full output of the schedule generator: the ordered rows plus the two
totals printed after the table. -/
structure ScheduleResult where
  records : List PaymentRecord
  totalInterest : ℚ
  totalPaid : ℚ
deriving DecidableEq, Repr

/-- Embedding of `calculate_emi(principal, annual_interest_rate,
loan_term_months)` from `loan.py`:

* zero rate: `principal / loan_term_months if loan_term_months > 0 else 0`;
* otherwise, with `r = (rate / 100) / 12`: `None` when the term is not
  positive, else `principal * r * (1 + r)^n / ((1 + r)^n - 1)`. -/
def calculate_emi (principal annual_interest_rate : ℚ) (loan_term_months : ℕ) :
    Option ℚ :=
  if annual_interest_rate = 0 then
    some (if 0 < loan_term_months then principal / (loan_term_months : ℚ) else 0)
  else
    let monthly_interest_rate := annual_interest_rate / 100 / 12
    if loan_term_months = 0 then
      none
    else
      let power_factor := (1 + monthly_interest_rate) ^ loan_term_months
      some (principal * monthly_interest_rate * power_factor / (power_factor - 1))

/-- The body of the `for month in range(1, loan_term_months + 1)` loop of
`generate_repayment_schedule`, written as structural recursion on the number
of months still to process (`fuel`); `month + fuel = loan_term_months + 1`
at the call site, so `month` runs over `1, …, loan_term_months`.  Returns the
rows produced from `month` on, together with the interest accumulated by
those rows.  Each iteration:

* `interest_paid = remaining_balance * monthly_interest_rate`;
* `principal_paid = emi - interest_paid`, overwritten with the whole
  remaining balance on the final month (`month == loan_term_months`);
* `closing_balance = remaining_balance - principal_paid`;
* the next iteration's balance is `closing_balance`, snapped to `0` when
  `abs(closing_balance) < 0.01` (the record keeps the unsnapped value). -/
def schedule_go (loan_term_months : ℕ) (monthly_interest_rate emi : ℚ) :
    ℕ → ℕ → ℚ → List PaymentRecord × ℚ
  | 0, _, _ => ([], 0)
  | fuel + 1, month, remaining_balance =>
    let interest_paid := remaining_balance * monthly_interest_rate
    let principal_paid :=
      if month = loan_term_months then remaining_balance else emi - interest_paid
    let closing_balance := remaining_balance - principal_paid
    let next_balance :=
      if |closing_balance| < 1 / 100 then 0 else closing_balance
    let rest :=
      schedule_go loan_term_months monthly_interest_rate emi fuel (month + 1)
        next_balance
    (⟨month, remaining_balance, interest_paid, principal_paid, closing_balance⟩
        :: rest.1,
      interest_paid + rest.2)

/-- Embedding of `generate_repayment_schedule(principal, annual_interest_rate,
loan_term_months, emi)` from `loan.py`: starts from
`remaining_balance = principal`, `monthly_interest_rate = (rate / 100) / 12`,
`total_interest_paid = 0`, runs the loop for months `1, …, loan_term_months`,
and reports the rows, the total interest, and
`principal + total_interest_paid` (the printed total amount paid). -/
def generate_repayment_schedule (principal annual_interest_rate : ℚ)
    (loan_term_months : ℕ) (emi : ℚ) : ScheduleResult :=
  let monthly_interest_rate := annual_interest_rate / 100 / 12
  let out :=
    schedule_go loan_term_months monthly_interest_rate emi loan_term_months 1
      principal
  ⟨out.1, out.2, principal + out.2⟩

/-- Geometric sum `1 + x + ⋯ + x^(n-1)`, used to restate the EMI formula in a
division-free way. -/
def geomSum (x : ℚ) (n : ℕ) : ℚ :=
  (Finset.range n).sum fun k => x ^ k

/-- Default record used with `List.getD` when indexing into a schedule. -/
def emptyRecord : PaymentRecord := ⟨0, 0, 0, 0, 0⟩

example : calculate_emi 100 0 10 = some 10 := by norm_num [calculate_emi]
example : calculate_emi 7 0 0 = some 0 := by norm_num [calculate_emi]
example : calculate_emi 5 3 0 = none := by norm_num [calculate_emi]
example : calculate_emi 100 12 1 = some 101 := by norm_num [calculate_emi]

example :
    generate_repayment_schedule 1000 12 2 600 =
      ⟨[⟨1, 1000, 10, 590, 410⟩, ⟨2, 410, 41/10, 410, 0⟩],
        141/10, 1000 + 141/10⟩ := by
  norm_num [generate_repayment_schedule, schedule_go, abs_lt]

example :
    generate_repayment_schedule (1/200) 0 2 (1/400) =
      ⟨[⟨1, 1/200, 0, 1/400, 1/400⟩, ⟨2, 0, 0, 0, 0⟩], 0, 1/200⟩ := by
  norm_num [generate_repayment_schedule, schedule_go, abs_lt]

/-! ### Helper lemmas about the schedule loop -/

/-- Every row the loop emits satisfies, in terms of its own fields, the three
assignments of the loop body: interest is the opening balance times the
monthly rate, the principal portion is the opening balance on the final month
and `emi - interest` otherwise, and the closing balance is the opening
balance minus the principal portion. -/
theorem schedule_go_rec_spec (n : ℕ) (mr e : ℚ) :
    ∀ (fuel month : ℕ) (rb : ℚ) (rec : PaymentRecord),
      rec ∈ (schedule_go n mr e fuel month rb).1 →
      rec.interestPortion = rec.openingBalance * mr ∧
      rec.principalPortion =
        (if rec.periodIndex = n then rec.openingBalance
          else e - rec.interestPortion) ∧
      rec.closingBalance = rec.openingBalance - rec.principalPortion := by
  intro fuel
  induction fuel with
  | zero =>
    intro month rb rec h
    simp [schedule_go] at h
  | succ k ih =>
    intro month rb rec h
    simp only [schedule_go, List.mem_cons] at h
    rcases h with h | h
    · subst h
      exact ⟨rfl, rfl, rfl⟩
    · exact ih _ _ _ h

/-- The period indices of the rows the loop emits are
`month, month + 1, …, month + fuel - 1`. -/
theorem schedule_go_map_periodIndex (n : ℕ) (mr e : ℚ) :
    ∀ (fuel month : ℕ) (rb : ℚ),
      (schedule_go n mr e fuel month rb).1.map PaymentRecord.periodIndex =
        List.range' month fuel := by
  intro fuel
  induction fuel with
  | zero => intro month rb; simp [schedule_go]
  | succ k ih =>
    intro month rb
    simp only [schedule_go, List.map_cons, List.range']
    exact congrArg _ (ih _ _)

/-- The loop emits exactly `fuel` rows. -/
theorem schedule_go_length (n : ℕ) (mr e : ℚ) (fuel month : ℕ) (rb : ℚ) :
    (schedule_go n mr e fuel month rb).1.length = fuel := by
  have h := congrArg List.length (schedule_go_map_periodIndex n mr e fuel month rb)
  simpa using h

/-- The interest total the loop returns is the sum of the emitted rows'
interest portions. -/
theorem schedule_go_snd_eq_sum (n : ℕ) (mr e : ℚ) :
    ∀ (fuel month : ℕ) (rb : ℚ),
      (schedule_go n mr e fuel month rb).2 =
        ((schedule_go n mr e fuel month rb).1.map
          PaymentRecord.interestPortion).sum := by
  intro fuel
  induction fuel with
  | zero => intro month rb; simp [schedule_go]
  | succ k ih =>
    intro month rb
    simp only [schedule_go, List.map_cons, List.sum_cons]
    exact congrArg _ (ih _ _)

/-- `getLast?` of a cons is `getLast?` of the (nonempty) tail. -/
theorem getLast?_cons_of_tail (a r : PaymentRecord) (l : List PaymentRecord)
    (h : l.getLast? = some r) : (a :: l).getLast? = some r := by
  cases l with
  | nil => simp at h
  | cons b t => rw [List.getLast?_cons_cons]; exact h

/-- When the loop still has months to process and `month + fuel = n + 1`
(so the months processed are `month, …, n`), the last row it emits is the
row of month `n`: its principal portion is its whole opening balance and its
closing balance is the exact difference `rb - rb = 0`. -/
theorem schedule_go_getLast (n : ℕ) (mr e : ℚ) :
    ∀ (fuel month : ℕ) (rb : ℚ), 1 ≤ fuel → month + fuel = n + 1 →
      ∃ rec, (schedule_go n mr e fuel month rb).1.getLast? = some rec ∧
        rec.periodIndex = n ∧ rec.principalPortion = rec.openingBalance ∧
        rec.closingBalance = 0 := by
  intro fuel
  induction fuel with
  | zero =>
    intro month rb h1 _
    exact absurd h1 (by omega)
  | succ k ih =>
    intro month rb _ h2
    cases k with
    | zero =>
      have hm : month = n := by omega
      refine ⟨⟨month, rb, rb * mr, rb, rb - rb⟩, ?_, hm, rfl, sub_self rb⟩
      simp [schedule_go, hm]
    | succ j =>
      have hne : month ≠ n := by omega
      obtain ⟨rec, hl, hp, hq, hr⟩ :=
        ih (month + 1)
          (if |rb - (if month = n then rb else e - rb * mr)| < 1 / 100 then 0
            else rb - (if month = n then rb else e - rb * mr))
          (by omega) (by omega)
      refine ⟨rec, ?_, hp, hq, hr⟩
      simp only [schedule_go]
      exact getLast?_cons_of_tail _ _ _ hl

/-- The first row the loop emits (when fuel remains) opens with the balance
the loop was started on. -/
theorem schedule_go_head_opening (n : ℕ) (mr e : ℚ) (fuel month : ℕ) (rb : ℚ)
    (h : 1 ≤ fuel) :
    ((schedule_go n mr e fuel month rb).1.getD 0 emptyRecord).openingBalance
      = rb := by
  cases fuel with
  | zero => exact absurd h (by omega)
  | succ k => simp [schedule_go]

/-- Consecutive rows of the loop's output: the opening balance of the next
row is the previous row's closing balance, snapped to `0` when its absolute
value is below `0.01` — exactly the `remaining_balance` update of the loop. -/
theorem schedule_go_chain (n : ℕ) (mr e : ℚ) :
    ∀ (fuel month : ℕ) (rb : ℚ) (i : ℕ), i + 1 < fuel →
      (((schedule_go n mr e fuel month rb).1.getD (i + 1)
          emptyRecord)).openingBalance =
        (if |(((schedule_go n mr e fuel month rb).1.getD i
            emptyRecord)).closingBalance| < 1 / 100 then 0
          else (((schedule_go n mr e fuel month rb).1.getD i
            emptyRecord)).closingBalance) := by
  intro fuel
  induction fuel with
  | zero =>
    intro month rb i hi
    exact absurd hi (by omega)
  | succ k ih =>
    intro month rb i hi
    cases i with
    | zero =>
      simp only [schedule_go, List.getD_cons_succ, List.getD_cons_zero]
      exact schedule_go_head_opening n mr e k (month + 1) _ (by omega)
    | succ j =>
      simp only [schedule_go, List.getD_cons_succ]
      exact ih (month + 1) _ j (by omega)

/-! ### Helper lemmas about the EMI formula -/

theorem geomSum_pos (x : ℚ) (hx : 0 < x) (n : ℕ) (hn : 1 ≤ n) :
    0 < geomSum x n := by
  unfold geomSum
  exact Finset.sum_pos (fun k _ => pow_pos hx k)
    (Finset.nonempty_range_iff.mpr (by omega))

theorem geomSum_one_eq (n : ℕ) : geomSum 1 n = (n : ℚ) := by
  simp [geomSum]

/-- Zero-rate branch of `calculate_emi` on a positive term. -/
theorem calculate_emi_zero_rate (P : ℚ) (n : ℕ) (hn : 1 ≤ n) :
    calculate_emi P 0 n = some (P / (n : ℚ)) := by
  rw [calculate_emi, if_pos rfl, if_pos (by omega)]

/-- Positive-rate branch of `calculate_emi` on a positive term, exactly as
computed by the source. -/
theorem calculate_emi_pos_rate (P r : ℚ) (hr : r ≠ 0) (n : ℕ) (hn : 1 ≤ n) :
    calculate_emi P r n =
      some (P * (r / 100 / 12) * (1 + r / 100 / 12) ^ n /
        ((1 + r / 100 / 12) ^ n - 1)) := by
  rw [calculate_emi, if_neg hr, if_neg (by omega)]

/-- Division-free form of the EMI value: for a non-negative rate with
monthly rate `m = r / 100 / 12` and `x = 1 + m`, the EMI equals
`P * x^n / (1 + x + ⋯ + x^(n-1))`; the rate-zero branch `P / n` is the
`x = 1` instance of the same expression. -/
theorem calculate_emi_closed_form (P r : ℚ) (hr : 0 ≤ r) (n : ℕ)
    (hn : 1 ≤ n) :
    calculate_emi P r n =
      some (P * (1 + r / 100 / 12) ^ n / geomSum (1 + r / 100 / 12) n) := by
  rcases eq_or_lt_of_le hr with hr0 | hr0
  · rw [← hr0, calculate_emi_zero_rate P n hn]
    norm_num [geomSum_one_eq]
  · have hm : 0 < r / 100 / 12 := by positivity
    set m := r / 100 / 12 with hmdef
    have hx : (0 : ℚ) < 1 + m := by linarith
    have hS : 0 < geomSum (1 + m) n := geomSum_pos _ hx n hn
    have hfact : (1 + m) ^ n - 1 = geomSum (1 + m) n * m := by
      have := geom_sum_mul (1 + m) n
      rw [geomSum]
      rw [← this]
      ring_nf
    rw [calculate_emi_pos_rate P r hr0.ne' n hn, ← hmdef, hfact]
    congr 1
    rw [div_eq_div_iff (by positivity) (by positivity)]
    ring

/-- Cross-multiplied core of the monotonicity argument: for `1 ≤ x₁ < x₂`
and `n ≥ 1`, `x₁^n · geomSum x₂ n < x₂^n · geomSum x₁ n` (each summand
compares strictly, since `x₁^(n-k) < x₂^(n-k)`). -/
theorem pow_mul_geomSum_lt (x1 x2 : ℚ) (n : ℕ) (hx1 : 1 ≤ x1)
    (h12 : x1 < x2) (hn : 1 ≤ n) :
    x1 ^ n * geomSum x2 n < x2 ^ n * geomSum x1 n := by
  have h01 : (0 : ℚ) < x1 := by linarith
  have h02 : (0 : ℚ) < x2 := by linarith
  unfold geomSum
  rw [Finset.mul_sum, Finset.mul_sum]
  apply Finset.sum_lt_sum_of_nonempty (Finset.nonempty_range_iff.mpr (by omega))
  intro k hk
  have hkn : k < n := Finset.mem_range.mp hk
  have hlt : x1 ^ (n - k) < x2 ^ (n - k) :=
    pow_lt_pow_left₀ h12 h01.le (by omega)
  have e1 : x1 ^ k * x1 ^ (n - k) = x1 ^ n := pow_mul_pow_sub x1 hkn.le
  have e2 : x2 ^ k * x2 ^ (n - k) = x2 ^ n := pow_mul_pow_sub x2 hkn.le
  calc x1 ^ n * x2 ^ k = (x1 ^ k * x2 ^ k) * x1 ^ (n - k) := by
        rw [← e1]; ring
    _ < (x1 ^ k * x2 ^ k) * x2 ^ (n - k) :=
        mul_lt_mul_of_pos_left hlt (mul_pos (pow_pos h01 k) (pow_pos h02 k))
    _ = x2 ^ n * x1 ^ k := by rw [← e2]; ring

/-- Strict growth of the closed-form EMI value in `x`. -/
theorem emi_val_strict_mono (P x1 x2 : ℚ) (n : ℕ) (hP : 0 < P)
    (hx1 : 1 ≤ x1) (h12 : x1 < x2) (hn : 1 ≤ n) :
    P * x1 ^ n / geomSum x1 n < P * x2 ^ n / geomSum x2 n := by
  have hS1 : 0 < geomSum x1 n := geomSum_pos _ (by linarith) n hn
  have hS2 : 0 < geomSum x2 n := geomSum_pos _ (by linarith) n hn
  rw [div_lt_div_iff₀ hS1 hS2]
  have h := pow_mul_geomSum_lt x1 x2 n hx1 h12 hn
  calc P * x1 ^ n * geomSum x2 n = P * (x1 ^ n * geomSum x2 n) := by ring
    _ < P * (x2 ^ n * geomSum x1 n) := mul_lt_mul_of_pos_left h hP
    _ = P * x2 ^ n * geomSum x1 n := by ring

/-- The one-month schedule fully evaluated: the single row pays the whole
principal, its interest is `principal * monthlyRate`, and the `emi` argument
does not occur in the result. -/
theorem generate_one_month (P r e : ℚ) :
    generate_repayment_schedule P r 1 e =
      ⟨[⟨1, P, P * (r / 100 / 12), P, 0⟩], P * (r / 100 / 12),
        P + P * (r / 100 / 12)⟩ := by
  simp [generate_repayment_schedule, schedule_go]

/-! ### Claim theorems -/

/-- C1, counterexample: the claimed invariant
`interestPortion + principalPortion = openingBalance - closingBalance`
(within `1e-6`) fails already on the first row of the schedule for
principal `1000`, rate `12`, term `2`, emi `600`: the row is
`⟨1, 1000, 10, 590, 410⟩`, so the left side is `600` but the balance drop
is `590` — off by `10`, far beyond the tolerance. -/
theorem schedule_row_payment_ne_balance_drop :
    ((generate_repayment_schedule 1000 12 2 600).records.getD 0
          emptyRecord).interestPortion
        + ((generate_repayment_schedule 1000 12 2 600).records.getD 0
          emptyRecord).principalPortion
        - (((generate_repayment_schedule 1000 12 2 600).records.getD 0
          emptyRecord).openingBalance
          - ((generate_repayment_schedule 1000 12 2 600).records.getD 0
            emptyRecord).closingBalance) = 10 ∧
    ¬ (|(10 : ℚ)| ≤ 1 / 1000000) := by
  constructor
  · norm_num [generate_repayment_schedule, schedule_go, abs_lt]
  · rw [abs_of_pos (by norm_num)]
    norm_num

/-- C1 (amended): in every row of every generated schedule,
`openingBalance - closingBalance` equals the `principalPortion` (exactly),
and on every row except the final one
`interestPortion + principalPortion` equals the EMI (exactly). -/
theorem schedule_row_payment_identities (P r : ℚ) (n : ℕ) (e : ℚ) :
    ∀ rec ∈ (generate_repayment_schedule P r n e).records,
      rec.openingBalance - rec.closingBalance = rec.principalPortion ∧
      (rec.periodIndex ≠ n → rec.interestPortion + rec.principalPortion = e) := by
  intro rec h
  obtain ⟨h1, h2, h3⟩ := schedule_go_rec_spec n (r / 100 / 12) e n 1 P rec h
  constructor
  · rw [h3]; ring
  · intro hne
    rw [h2, if_neg hne]; ring

/-- C1 witness: the amended identities, instantiated on the first row of the
schedule for `1000, 12, 2, 600`, which is `⟨1, 1000, 10, 590, 410⟩`. -/
theorem schedule_row_payment_identities_witness :
    (⟨1, 1000, 10, 590, 410⟩ : PaymentRecord) ∈
      (generate_repayment_schedule 1000 12 2 600).records ∧
    ((1000 : ℚ) - 410 = 590 ∧ ((1 : ℕ) ≠ 2 → (10 : ℚ) + 590 = 600)) := by
  have hm : (⟨1, 1000, 10, 590, 410⟩ : PaymentRecord) ∈
      (generate_repayment_schedule 1000 12 2 600).records := by
    norm_num [generate_repayment_schedule, schedule_go, abs_lt]
  exact ⟨hm, schedule_row_payment_identities 1000 12 2 600 _ hm⟩

/-- C2, counterexample: with rate `0` and term `0` the calculator returns
the numeric value `0` (`some 0`), not the invalid-term signal (`none`) — the
zero-rate branch never checks the term. -/
theorem emi_zero_rate_zero_term_numeric : calculate_emi 7 0 0 = some 0 := by
  norm_num [calculate_emi]

/-- C2 (amended): with a nonzero rate, term `0` makes `calculate_emi` signal
the invalid term by returning `none`; with rate `0` and term `0` it instead
returns the numeric value `0`. -/
theorem emi_zero_term_signals_invalid (P r : ℚ) (hr : r ≠ 0) :
    calculate_emi P r 0 = none ∧ calculate_emi P 0 0 = some 0 :=
  ⟨by simp [calculate_emi, hr], by simp [calculate_emi]⟩

/-- C2 witness: the amended behaviour at `P = 7`, `r = 3`. -/
theorem emi_zero_term_signals_invalid_witness :
    ((3 : ℚ) ≠ 0) ∧
    (calculate_emi 7 3 0 = none ∧ calculate_emi 7 0 0 = some 0) :=
  ⟨by norm_num, emi_zero_term_signals_invalid 7 3 (by norm_num)⟩

/-- C3, counterexample: the snap-to-zero of balances below `0.01` breaks the
chaining of balances even for the EMI the calculator itself returns: with
principal `1/200`, rate `0`, term `2`, the EMI is `1/400`; period 1 closes at
`1/400 < 0.01`, so period 2 opens at `0 ≠ 1/400`. -/
theorem schedule_snap_breaks_chaining :
    calculate_emi (1 / 200) 0 2 = some (1 / 400) ∧
    ((generate_repayment_schedule (1 / 200) 0 2 (1 / 400)).records.getD 1
        emptyRecord).openingBalance ≠
      ((generate_repayment_schedule (1 / 200) 0 2 (1 / 400)).records.getD 0
        emptyRecord).closingBalance := by
  constructor
  · norm_num [calculate_emi]
  · norm_num [generate_repayment_schedule, schedule_go, abs_lt]

/-- C3 (amended): period 1 opens at the principal, and period `k + 1` opens
at period `k`'s closing balance unless that balance is below `0.01` in
absolute value, in which case period `k + 1` opens at exactly `0`. -/
theorem schedule_opening_balance_chain (P r : ℚ) (n : ℕ) (e : ℚ)
    (hn : 1 ≤ n) :
    ((generate_repayment_schedule P r n e).records.getD 0
      emptyRecord).openingBalance = P ∧
    ∀ i : ℕ, i + 1 < n →
      ((generate_repayment_schedule P r n e).records.getD (i + 1)
          emptyRecord).openingBalance =
        (if |((generate_repayment_schedule P r n e).records.getD i
            emptyRecord).closingBalance| < 1 / 100 then 0
          else ((generate_repayment_schedule P r n e).records.getD i
            emptyRecord).closingBalance) := by
  constructor
  · exact schedule_go_head_opening n (r / 100 / 12) e n 1 P hn
  · intro i hi
    exact schedule_go_chain n (r / 100 / 12) e n 1 P i hi

/-- C3 witness: the amended chaining at `1000, 12, 2, 600`. -/
theorem schedule_opening_balance_chain_witness :
    (1 : ℕ) ≤ 2 ∧
    (((generate_repayment_schedule 1000 12 2 600).records.getD 0
        emptyRecord).openingBalance = 1000 ∧
      ∀ i : ℕ, i + 1 < 2 →
        ((generate_repayment_schedule 1000 12 2 600).records.getD (i + 1)
            emptyRecord).openingBalance =
          (if |((generate_repayment_schedule 1000 12 2 600).records.getD i
              emptyRecord).closingBalance| < 1 / 100 then 0
            else ((generate_repayment_schedule 1000 12 2 600).records.getD i
              emptyRecord).closingBalance)) :=
  ⟨by norm_num, schedule_opening_balance_chain 1000 12 2 600 (by norm_num)⟩

/-- C4: for every principal, rate, term `≥ 1` and EMI value, the final row of
the schedule closes at exactly `0`, because its principal portion is forced
to the whole remaining balance. -/
theorem schedule_final_closing_exactly_zero (P r : ℚ) (n : ℕ) (e : ℚ)
    (hn : 1 ≤ n) :
    ∃ rec, (generate_repayment_schedule P r n e).records.getLast? = some rec ∧
      rec.principalPortion = rec.openingBalance ∧ rec.closingBalance = 0 := by
  obtain ⟨rec, h1, _, h3, h4⟩ :=
    schedule_go_getLast n (r / 100 / 12) e n 1 P hn (by omega)
  exact ⟨rec, h1, h3, h4⟩

/-- C4 witness: the exact-zero final closing balance at `1000, 12, 2, 600`. -/
theorem schedule_final_closing_exactly_zero_witness :
    (1 : ℕ) ≤ 2 ∧
    ∃ rec, (generate_repayment_schedule 1000 12 2 600).records.getLast? =
        some rec ∧
      rec.principalPortion = rec.openingBalance ∧ rec.closingBalance = 0 :=
  ⟨by norm_num, schedule_final_closing_exactly_zero 1000 12 2 600 (by norm_num)⟩

/-- C5: with principal positive and the term fixed at `n ≥ 1`, the EMI is
strictly increasing in the annual rate over non-negative rates: if
`calculate_emi` returns values at rates `r₁ < r₂` (with `0 ≤ r₁`), the value
at `r₂` is strictly larger. -/
theorem emi_strictly_increasing_in_rate (P r1 r2 e1 e2 : ℚ) (n : ℕ)
    (hP : 0 < P) (hn : 1 ≤ n) (hr1 : 0 ≤ r1) (h12 : r1 < r2)
    (h1 : calculate_emi P r1 n = some e1)
    (h2 : calculate_emi P r2 n = some e2) :
    e1 < e2 := by
  have hr2 : 0 ≤ r2 := le_trans hr1 h12.le
  rw [calculate_emi_closed_form P r1 hr1 n hn] at h1
  rw [calculate_emi_closed_form P r2 hr2 n hn] at h2
  have hx1 : (1 : ℚ) ≤ 1 + r1 / 100 / 12 := by
    have : (0 : ℚ) ≤ r1 / 100 / 12 := by positivity
    linarith
  have hxx : 1 + r1 / 100 / 12 < 1 + r2 / 100 / 12 := by
    have : r1 / 100 / 12 < r2 / 100 / 12 := by linarith
    linarith
  have h :=
    emi_val_strict_mono P (1 + r1 / 100 / 12) (1 + r2 / 100 / 12) n hP hx1
      hxx hn
  rw [← Option.some.inj h1, ← Option.some.inj h2]
  exact h

/-- C5 witness: `calculate_emi 100 0 1 = some 100 < some 101 =
calculate_emi 100 12 1`. -/
theorem emi_strictly_increasing_in_rate_witness :
    (0 : ℚ) < 100 ∧ (1 : ℕ) ≤ 1 ∧ (0 : ℚ) ≤ 0 ∧ (0 : ℚ) < 12 ∧
    calculate_emi 100 0 1 = some 100 ∧ calculate_emi 100 12 1 = some 101 ∧
    (100 : ℚ) < 101 := by
  have h1 : calculate_emi 100 0 1 = some 100 := by norm_num [calculate_emi]
  have h2 : calculate_emi 100 12 1 = some 101 := by norm_num [calculate_emi]
  exact ⟨by norm_num, by norm_num, by norm_num, by norm_num, h1, h2,
    emi_strictly_increasing_in_rate 100 0 12 100 101 1 (by norm_num)
      (by norm_num) (by norm_num) (by norm_num) h1 h2⟩

/-- C6: at rate `0` and term `n ≥ 1` the EMI is exactly `P / n`, and every
row of a rate-`0` schedule (for any EMI argument) has interest portion
exactly `0`. -/
theorem emi_zero_rate_division_and_zero_interest (P e : ℚ) (n : ℕ)
    (hn : 1 ≤ n) :
    calculate_emi P 0 n = some (P / (n : ℚ)) ∧
    ∀ rec ∈ (generate_repayment_schedule P 0 n e).records,
      rec.interestPortion = 0 := by
  refine ⟨calculate_emi_zero_rate P n hn, ?_⟩
  intro rec h
  obtain ⟨h1, _, _⟩ :=
    schedule_go_rec_spec n ((0 : ℚ) / 100 / 12) e n 1 P rec h
  rw [h1, show ((0 : ℚ) / 100 / 12) = 0 by norm_num, mul_zero]

/-- C6 witness: the zero-rate behaviour at `P = 100`, `n = 2`, emi
argument `50`. -/
theorem emi_zero_rate_division_and_zero_interest_witness :
    (1 : ℕ) ≤ 2 ∧ calculate_emi 100 0 2 = some (100 / ((2 : ℕ) : ℚ)) ∧
    ∀ rec ∈ (generate_repayment_schedule 100 0 2 50).records,
      rec.interestPortion = 0 :=
  ⟨by norm_num,
    (emi_zero_rate_division_and_zero_interest 100 50 2 (by norm_num)).1,
    (emi_zero_rate_division_and_zero_interest 100 50 2 (by norm_num)).2⟩

/-- C7: for a positive rate and term `n ≥ 1`, `calculate_emi` returns
exactly `P * r * f / (f - 1)` with monthly rate `r = rate / 100 / 12` and
`f = (1 + r) ^ n`. -/
theorem emi_positive_rate_formula (P r : ℚ) (n : ℕ) (hr : 0 < r)
    (hn : 1 ≤ n) :
    calculate_emi P r n =
      some (P * (r / 100 / 12) * (1 + r / 100 / 12) ^ n /
        ((1 + r / 100 / 12) ^ n - 1)) :=
  calculate_emi_pos_rate P r hr.ne' n hn

/-- C7 witness: the formula at `P = 100`, rate `12`, term `1`. -/
theorem emi_positive_rate_formula_witness :
    (0 : ℚ) < 12 ∧ (1 : ℕ) ≤ 1 ∧
    calculate_emi 100 12 1 =
      some (100 * ((12 : ℚ) / 100 / 12) * (1 + (12 : ℚ) / 100 / 12) ^ (1 : ℕ) /
        ((1 + (12 : ℚ) / 100 / 12) ^ (1 : ℕ) - 1)) :=
  ⟨by norm_num, by norm_num,
    emi_positive_rate_formula 100 12 1 (by norm_num) (by norm_num)⟩

/-- C8: the schedule always has exactly `termMonths` rows, whose period
indices are `1, 2, …, termMonths` in increasing order. -/
theorem schedule_length_and_period_indices (P r : ℚ) (n : ℕ) (e : ℚ) :
    (generate_repayment_schedule P r n e).records.length = n ∧
    (generate_repayment_schedule P r n e).records.map PaymentRecord.periodIndex
      = List.range' 1 n :=
  ⟨schedule_go_length n (r / 100 / 12) e n 1 P,
    schedule_go_map_periodIndex n (r / 100 / 12) e n 1 P⟩

/-- C9: `totalInterest` is exactly the sum of the rows' interest portions,
and `totalPaid` is exactly `principal + totalInterest`. -/
theorem schedule_totals (P r : ℚ) (n : ℕ) (e : ℚ) :
    (generate_repayment_schedule P r n e).totalInterest =
      ((generate_repayment_schedule P r n e).records.map
        PaymentRecord.interestPortion).sum ∧
    (generate_repayment_schedule P r n e).totalPaid =
      P + (generate_repayment_schedule P r n e).totalInterest :=
  ⟨schedule_go_snd_eq_sum n (r / 100 / 12) e n 1 P, rfl⟩

/-- C10: a one-month schedule does not depend on the `emi` argument: any two
EMI values give identical output, namely the single row
`⟨1, P, P * monthlyRate, P, 0⟩` with `totalInterest = P * monthlyRate` and
`totalPaid = P + P * monthlyRate`. -/
theorem schedule_one_month_ignores_emi (P r e1 e2 : ℚ) :
    generate_repayment_schedule P r 1 e1 =
      generate_repayment_schedule P r 1 e2 ∧
    generate_repayment_schedule P r 1 e1 =
      ⟨[⟨1, P, P * (r / 100 / 12), P, 0⟩], P * (r / 100 / 12),
        P + P * (r / 100 / 12)⟩ := by
  rw [generate_one_month, generate_one_month]
  exact ⟨rfl, rfl⟩

end Loan
